import Mathlib

set_option maxHeartbeats 1000000

namespace FargateToK8s

/-! Shallow embedding of scripts/migration/fargate-to-k8s.py.

Input documents are modelled as typed records; a field read with a required
key access in the source (container name, image, containerPort of a port
mapping, taskRoleArn after the membership test) is an Option field whose
absence makes the corresponding builder fail, mirroring the KeyError that
the script would raise. List indexing with [0] on a possibly empty list is
likewise modelled as a fallible access, mirroring IndexError. -/

structure PortMapping where
  containerPort : Option Nat := none
  protocol : Option String := none
deriving DecidableEq, Repr

structure EnvVarEntry where
  name : String
  value : String
deriving DecidableEq, Repr

structure SecretEntry where
  name : String
deriving DecidableEq, Repr

structure HealthCheck where
  command : Option (List String) := none
  interval : Option Nat := none
  timeout : Option Nat := none
  retries : Option Nat := none
  startPeriod : Option Nat := none
deriving DecidableEq, Repr

structure ContainerDef where
  name : Option String := none
  image : Option String := none
  portMappings : Option (List PortMapping) := none
  environment : List EnvVarEntry := []
  secrets : List SecretEntry := []
  healthCheck : Option HealthCheck := none
  command : Option (List String) := none
  entryPoint : Option (List String) := none
  cpu : Option Nat := none
  memory : Option Nat := none
deriving DecidableEq, Repr

structure TaskDef where
  family : Option String := none
  containerDefinitions : List ContainerDef := []
  taskRoleArn : Option String := none
deriving DecidableEq, Repr

structure LoadBalancerConfig where
  certificateArn : Option String := none
deriving DecidableEq, Repr

structure ServiceDef where
  desiredCount : Option Nat := none
  loadBalancers : List LoadBalancerConfig := []
deriving DecidableEq, Repr

/-! Output manifests, typed with exactly the fields the script writes. -/

structure K8sPort where
  name : String
  containerPort : Nat
  protocol : String
deriving DecidableEq, Repr

inductive K8sEnvVar where
  | plain (name value : String)
  | secretRef (name secretStoreName key : String)
deriving DecidableEq, Repr

structure Probe where
  path : String
  port : Nat
  initialDelaySeconds : Nat
  periodSeconds : Nat
  timeoutSeconds : Nat
  failureThreshold : Nat
deriving DecidableEq, Repr

structure Resources where
  requestsMemory : Option String := none
  requestsCpu : Option String := none
  limitsMemory : Option String := none
  limitsCpu : Option String := none
deriving DecidableEq, Repr

structure K8sContainer where
  name : String
  image : String
  imagePullPolicy : String
  ports : Option (List K8sPort) := none
  env : Option (List K8sEnvVar) := none
  resources : Resources
  livenessProbe : Option Probe := none
  command : Option (List String) := none
deriving DecidableEq, Repr

structure Deployment where
  name : String
  labelApp : String
  labelManagedBy : String
  labelMigratedFrom : String
  replicas : Nat
  selectorApp : String
  templateLabelApp : String
  containers : List K8sContainer
  restartPolicy : String
  maxSurge : Nat
  maxUnavailable : Nat
  serviceAccountName : Option String := none
deriving DecidableEq, Repr

structure SvcPort where
  name : String
  port : Nat
  targetPort : Nat
  protocol : String
deriving DecidableEq, Repr

structure ServiceManifest where
  name : String
  labelApp : String
  labelManagedBy : String
  selectorApp : String
  svcType : String
  ports : List SvcPort
deriving DecidableEq, Repr

structure Ingress where
  name : String
  labelApp : String
  labelManagedBy : String
  pathRule : String
  pathType : String
  backendServiceName : String
  backendPortNumber : Nat
  certificateArn : Option String := none
  sslRedirect : Option String := none
deriving DecidableEq, Repr

structure ServiceAccount where
  name : String
  labelApp : String
  labelManagedBy : String
  roleArn : String
deriving DecidableEq, Repr

structure HPA where
  name : String
  labelApp : String
  labelManagedBy : String
  scaleTargetKind : String
  scaleTargetName : String
  minReplicas : Nat
  maxReplicas : Nat
  cpuAverageUtilization : Nat
  memoryAverageUtilization : Nat
deriving DecidableEq, Repr

inductive Manifest where
  | deployment (d : Deployment)
  | service (s : ServiceManifest)
  | ingress (i : Ingress)
  | serviceAccount (sa : ServiceAccount)
  | hpa (h : HPA)
deriving DecidableEq, Repr

/-! Unit converters, lines 14 to 21 of the script. The Python expression
int(cpu_units * 1000 / 1024) truncates the quotient toward zero; on the
natural inputs of the data model this is Nat division. -/

def convert_memory_to_mi (memory_mb : Nat) : String :=
  toString memory_mb ++ "Mi"

def convert_cpu_to_millicores (cpu_units : Nat) : String :=
  toString (cpu_units * 1000 / 1024) ++ "m"

/-- Resource requirement builder, lines 24 to 38. The Python expression
int(raw * 0.8) is floor of four fifths of the raw value, here m * 8 / 10. -/
def create_resource_requirements (container : ContainerDef) : Resources :=
  let r : Resources := {}
  let r := match container.memory with
    | some m =>
        { r with limitsMemory := some (convert_memory_to_mi m),
                 requestsMemory := some (convert_memory_to_mi (m * 8 / 10)) }
    | none => r
  match container.cpu with
  | some u =>
      { r with limitsCpu := some (convert_cpu_to_millicores u),
               requestsCpu := some (convert_cpu_to_millicores (u * 8 / 10)) }
  | none => r

def convert_environment_variables (container : ContainerDef) (app_name : String) :
    List K8sEnvVar :=
  container.environment.map (fun e => K8sEnvVar.plain e.name e.value) ++
    container.secrets.map (fun s =>
      K8sEnvVar.secretRef s.name (app_name ++ "-secrets") s.name)

/-- Fallible map mirroring a Python for loop that appends per element and
aborts at the first raised error. -/
def mapME {α β : Type} (f : α → Except String β) : List α → Except String (List β)
  | [] => Except.ok []
  | x :: xs =>
    match f x with
    | Except.error e => Except.error e
    | Except.ok y =>
      match mapME f xs with
      | Except.error e => Except.error e
      | Except.ok ys => Except.ok (y :: ys)

/-- Required key access on a dictionary, raising KeyError when absent. -/
def require {α : Type} (o : Option α) (msg : String) : Except String α :=
  match o with
  | some a => Except.ok a
  | none => Except.error msg

def buildPort (pm : PortMapping) : Except String K8sPort :=
  match pm.containerPort with
  | none => Except.error "KeyError: containerPort"
  | some cp =>
      Except.ok { name := "port-" ++ toString cp, containerPort := cp,
                  protocol := (pm.protocol.getD "TCP").toUpper }

def buildPorts (container : ContainerDef) : Except String (Option (List K8sPort)) :=
  match container.portMappings with
  | none => Except.ok none
  | some pms =>
    match mapME buildPort pms with
    | Except.error e => Except.error e
    | Except.ok ks => Except.ok (some ks)

/-- Default used by the probe port lookup, line 102 of the script. -/
def defaultProbePortMappings : List PortMapping :=
  [{ containerPort := some 80 }]

/-- Liveness probe construction, lines 97 to 108. The defaults apply only
when the command key or the portMappings key is absent; a present but empty
list makes the [0] access fail, as in the script. -/
def buildProbe (container : ContainerDef) (hc : HealthCheck) : Except String Probe :=
  match hc.command.getD ["/health"] with
  | [] => Except.error "IndexError: list index out of range"
  | path :: _ =>
    match container.portMappings.getD defaultProbePortMappings with
    | [] => Except.error "IndexError: list index out of range"
    | pm :: _ =>
      match pm.containerPort with
      | none => Except.error "KeyError: containerPort"
      | some port =>
          Except.ok
            { path := path, port := port,
              initialDelaySeconds := hc.startPeriod.getD 30,
              periodSeconds := hc.interval.getD 30,
              timeoutSeconds := hc.timeout.getD 5,
              failureThreshold := hc.retries.getD 3 }

def buildLiveness (container : ContainerDef) : Except String (Option Probe) :=
  match container.healthCheck with
  | none => Except.ok none
  | some hc =>
    match buildProbe container hc with
    | Except.error e => Except.error e
    | Except.ok pr => Except.ok (some pr)

/-- One iteration of the container loop of create_deployment, lines 71 to
116. The command field is written from command first and then overwritten
from entryPoint, so entryPoint wins when both are present. -/
def buildContainer (app_name : String) (container : ContainerDef) :
    Except String K8sContainer :=
  match container.name with
  | none => Except.error "KeyError: name"
  | some cname =>
  match container.image with
  | none => Except.error "KeyError: image"
  | some img =>
  match buildPorts container with
  | Except.error e => Except.error e
  | Except.ok ports =>
  match buildLiveness container with
  | Except.error e => Except.error e
  | Except.ok probe =>
    let env_vars := convert_environment_variables container app_name
    Except.ok
      { name := cname, image := img, imagePullPolicy := "IfNotPresent",
        ports := ports,
        env := if env_vars.isEmpty then none else some env_vars,
        resources := create_resource_requirements container,
        livenessProbe := probe,
        command := (match container.entryPoint with
                    | some ep => some ep
                    | none => container.command) }

def create_deployment (task_def : TaskDef) (service : ServiceDef)
    (app_name : String) : Except String Deployment :=
  match mapME (buildContainer app_name) task_def.containerDefinitions with
  | Except.error e => Except.error e
  | Except.ok containers =>
    Except.ok
      { name := app_name,
        labelApp := app_name, labelManagedBy := "cygni",
        labelMigratedFrom := "fargate",
        replicas := service.desiredCount.getD 2,
        selectorApp := app_name, templateLabelApp := app_name,
        containers := containers, restartPolicy := "Always",
        maxSurge := 1, maxUnavailable := 0,
        serviceAccountName := (match task_def.taskRoleArn with
          | some _ => some app_name
          | none => none) }

def svcPortOf (pm : PortMapping) : Except String SvcPort :=
  match pm.containerPort with
  | none => Except.error "KeyError: containerPort"
  | some cp =>
      Except.ok { name := "port-" ++ toString cp, port := cp, targetPort := cp,
                  protocol := (pm.protocol.getD "TCP").toUpper }

def defaultHttpPort : SvcPort :=
  { name := "http", port := 80, targetPort := 80, protocol := "TCP" }

def create_service (task_def : TaskDef) (app_name : String) :
    Except String ServiceManifest :=
  match mapME (fun c => mapME svcPortOf (c.portMappings.getD []))
      task_def.containerDefinitions with
  | Except.error e => Except.error e
  | Except.ok portLists =>
    let ports := portLists.flatten
    let ports := if ports.isEmpty then [defaultHttpPort] else ports
    Except.ok
      { name := app_name, labelApp := app_name, labelManagedBy := "cygni",
        selectorApp := app_name, svcType := "ClusterIP", ports := ports }

def create_ingress (service_def : ServiceDef) (app_name : String)
    (service_ports : List SvcPort) : Except String (Option Ingress) :=
  match service_def.loadBalancers with
  | [] => Except.ok none
  | lb :: _ =>
    match service_ports with
    | [] => Except.error "IndexError: list index out of range"
    | p0 :: _ =>
      let base : Ingress :=
        { name := app_name, labelApp := app_name,
          labelManagedBy := "cygni", pathRule := "/", pathType := "Prefix",
          backendServiceName := app_name, backendPortNumber := p0.port }
      match lb.certificateArn with
      | some arn =>
          Except.ok (some
            { base with
              certificateArn := some arn
              sslRedirect := some "443" })
      | none => Except.ok (some base)

def create_service_account (task_def : TaskDef) (app_name : String) :
    Option ServiceAccount :=
  match task_def.taskRoleArn with
  | none => none
  | some arn =>
      some { name := app_name, labelApp := app_name, labelManagedBy := "cygni",
             roleArn := arn }

def create_hpa (app_name : String) (min_replicas max_replicas : Nat) : HPA :=
  { name := app_name, labelApp := app_name, labelManagedBy := "cygni",
    scaleTargetKind := "Deployment", scaleTargetName := app_name,
    minReplicas := min_replicas, maxReplicas := max_replicas,
    cpuAverageUtilization := 70, memoryAverageUtilization := 80 }

/-- Application name derivation, line 351 of the script. -/
def appName (task_def : TaskDef) : String :=
  task_def.family.getD "cygni-app"

/-- Manifest generation portion of main, lines 351 to 382: the labeled list
of kind and manifest pairs in the exact order the script collects them. -/
def generateManifests (task_def : TaskDef) (service : ServiceDef) :
    Except String (List (String × Manifest)) :=
  match create_deployment task_def service (appName task_def) with
  | Except.error e => Except.error e
  | Except.ok deployment =>
  match create_service task_def (appName task_def) with
  | Except.error e => Except.error e
  | Except.ok service_manifest =>
  match create_ingress service (appName task_def) service_manifest.ports with
  | Except.error e => Except.error e
  | Except.ok ingressOpt =>
    Except.ok ([("deployment", Manifest.deployment deployment),
        ("service", Manifest.service service_manifest)] ++
      (match ingressOpt with
       | some ing => [("ingress", Manifest.ingress ing)]
       | none => []) ++
      (match create_service_account task_def (appName task_def) with
       | some sa => [("serviceaccount", Manifest.serviceAccount sa)]
       | none => []) ++
      [("hpa", Manifest.hpa (create_hpa (appName task_def) (service.desiredCount.getD 2)
          (min (service.desiredCount.getD 2 * 5) 50)))])

/-- The strings of a manifest that name the workload: metadata name, the
app label, selector values, and workload references. -/
def manifestNames : Manifest → List String
  | Manifest.deployment d =>
      [d.name, d.labelApp, d.selectorApp, d.templateLabelApp] ++
        (match d.serviceAccountName with
         | some s => [s]
         | none => [])
  | Manifest.service s => [s.name, s.labelApp, s.selectorApp]
  | Manifest.ingress i => [i.name, i.labelApp, i.backendServiceName]
  | Manifest.serviceAccount sa => [sa.name, sa.labelApp]
  | Manifest.hpa h => [h.name, h.labelApp, h.scaleTargetName]

/-! Theorems about the embedding. -/

/-- C3: for every CPU units value u the conversion emits exactly the floor
of u * 1000 / 1024 millicores with the m suffix, and it is exact (the
division leaves no remainder) for u in 0, 256, 512, 1024, 2048. -/
theorem cpu_conversion_exact_floor (u : Nat) :
    convert_cpu_to_millicores u
      = toString (Nat.floor (((u : ℚ) * 1000) / 1024)) ++ "m" ∧
    convert_cpu_to_millicores 0 = "0m" ∧
    convert_cpu_to_millicores 256 = "250m" ∧
    convert_cpu_to_millicores 512 = "500m" ∧
    convert_cpu_to_millicores 1024 = "1000m" ∧
    convert_cpu_to_millicores 2048 = "2000m" ∧
    0 * 1000 % 1024 = 0 ∧ 256 * 1000 % 1024 = 0 ∧ 512 * 1000 % 1024 = 0 ∧
    1024 * 1000 % 1024 = 0 ∧ 2048 * 1000 % 1024 = 0 := by
  refine ⟨?_, rfl, rfl, rfl, rfl, rfl, by decide, by decide, by decide,
    by decide, by decide⟩
  have h2 : ((u : ℚ) * 1000) = ((u * 1000 : ℕ) : ℚ) := by push_cast; ring
  rw [convert_cpu_to_millicores, h2, Nat.floor_div_ofNat, Nat.floor_natCast]

/-- C7: the memory conversion concatenates the decimal representation of
the numeric quantity with the Mi suffix; the numeric value is carried
through unchanged, with no magnitude conversion. -/
theorem memory_conversion_pass_through (m : Nat) :
    convert_memory_to_mi m = toString m ++ "Mi" ∧
    convert_memory_to_mi 1024 = "1024Mi" ∧
    convert_memory_to_mi 1000 = "1000Mi" := ⟨rfl, rfl, rfl⟩

/-- C4: per resource dimension present on the container, the limit is the
unit conversion of the raw value, the request is the unit conversion of
floor of eight tenths of the raw value, and the requested quantity is at
most the limit quantity; an absent dimension emits neither key. -/
theorem request_le_limit (c : ContainerDef) :
    (∀ m, c.memory = some m →
      (create_resource_requirements c).limitsMemory
        = some (convert_memory_to_mi m) ∧
      (create_resource_requirements c).requestsMemory
        = some (convert_memory_to_mi (m * 8 / 10)) ∧
      m * 8 / 10 ≤ m) ∧
    (c.memory = none →
      (create_resource_requirements c).limitsMemory = none ∧
      (create_resource_requirements c).requestsMemory = none) ∧
    (∀ u, c.cpu = some u →
      (create_resource_requirements c).limitsCpu
        = some (convert_cpu_to_millicores u) ∧
      (create_resource_requirements c).requestsCpu
        = some (convert_cpu_to_millicores (u * 8 / 10)) ∧
      u * 8 / 10 * 1000 / 1024 ≤ u * 1000 / 1024) ∧
    (c.cpu = none →
      (create_resource_requirements c).limitsCpu = none ∧
      (create_resource_requirements c).requestsCpu = none) := by
  have harith : ∀ u : Nat, u * 8 / 10 * 1000 / 1024 ≤ u * 1000 / 1024 := by
    intro u
    have h1 : u * 8 / 10 ≤ u := by omega
    exact Nat.div_le_div_right (Nat.mul_le_mul_right 1000 h1)
  rcases hm : c.memory with _ | m <;> rcases hu : c.cpu with _ | u <;>
    simp [create_resource_requirements, hm, hu, harith] <;> omega

def c4Container : ContainerDef := { cpu := some 512, memory := some 1024 }

theorem request_le_limit_witness :
    (create_resource_requirements c4Container).limitsMemory = some "1024Mi" ∧
    (create_resource_requirements c4Container).requestsMemory = some "819Mi" ∧
    819 ≤ 1024 ∧
    (create_resource_requirements c4Container).limitsCpu = some "500m" ∧
    (create_resource_requirements c4Container).requestsCpu = some "399m" ∧
    399 ≤ 500 := by
  obtain ⟨hmem, _, hcpu, _⟩ := request_le_limit c4Container
  obtain ⟨h1, h2, h3⟩ := hmem 1024 rfl
  obtain ⟨h4, h5, h6⟩ := hcpu 512 rfl
  exact ⟨h1, h2, h3, h4, h5, h6⟩

/-- Successful container conversion determines every output field from the
source container. -/
theorem buildContainer_ok_fields (app_name : String) (c : ContainerDef)
    (k : K8sContainer) (h : buildContainer app_name c = Except.ok k) :
    ∃ cname img ports probe,
      c.name = some cname ∧ c.image = some img ∧
      buildPorts c = Except.ok ports ∧ buildLiveness c = Except.ok probe ∧
      k = { name := cname, image := img, imagePullPolicy := "IfNotPresent",
            ports := ports,
            env := if (convert_environment_variables c app_name).isEmpty
                   then none
                   else some (convert_environment_variables c app_name),
            resources := create_resource_requirements c,
            livenessProbe := probe,
            command := (match c.entryPoint with
                        | some ep => some ep
                        | none => c.command) } := by
  unfold buildContainer at h
  rcases hn : c.name with _ | cname <;> rw [hn] at h
  · exact absurd h (by simp)
  rcases hi : c.image with _ | img <;> rw [hi] at h
  · exact absurd h (by simp)
  rcases hp : buildPorts c with e | ports <;> rw [hp] at h
  · exact absurd h (by simp)
  rcases hl : buildLiveness c with e | probe <;> rw [hl] at h
  · exact absurd h (by simp)
  simp only [Except.ok.injEq] at h
  exact ⟨cname, img, ports, probe, rfl, rfl, rfl, rfl, h.symm⟩

/-- C9: the generated command equals entryPoint when entryPoint is present
(overriding command when both exist), equals command when only command is
present, and is absent when neither is present. -/
theorem entrypoint_overrides_command (app_name : String) (c : ContainerDef)
    (k : K8sContainer) (h : buildContainer app_name c = Except.ok k) :
    (∀ ep, c.entryPoint = some ep → k.command = some ep) ∧
    (∀ cmd, c.entryPoint = none → c.command = some cmd → k.command = some cmd) ∧
    (c.entryPoint = none → c.command = none → k.command = none) := by
  obtain ⟨cname, img, ports, probe, _, _, _, _, hk⟩ :=
    buildContainer_ok_fields app_name c k h
  subst hk
  refine ⟨?_, ?_, ?_⟩
  · intro ep hep
    simp [hep]
  · intro cmd hep hcmd
    simp [hep, hcmd]
  · intro hep hcmd
    simp [hep, hcmd]

def c9Container : ContainerDef :=
  { name := some "api", image := some "img",
    entryPoint := some ["ep"], command := some ["cmd"] }

def dummyContainer : K8sContainer :=
  { name := "", image := "", imagePullPolicy := "", resources := {} }

def c9Result : K8sContainer :=
  match buildContainer "app" c9Container with
  | Except.ok k => k
  | Except.error _ => dummyContainer

theorem entrypoint_overrides_command_witness :
    buildContainer "app" c9Container = Except.ok c9Result ∧
    c9Container.entryPoint = some ["ep"] ∧
    c9Container.command = some ["cmd"] ∧
    c9Result.command = some ["ep"] := by
  refine ⟨rfl, rfl, rfl, ?_⟩
  exact (entrypoint_overrides_command "app" c9Container c9Result rfl).1 ["ep"] rfl

/-- Characterization of a successful liveness probe construction: the path
is the head of the command field when present, and the literal default
when the command field is absent; likewise for the probe port. -/
theorem buildProbe_ok (c : ContainerDef) (hc : HealthCheck) (pr : Probe)
    (h : buildProbe c hc = Except.ok pr) :
    (∀ cmd, hc.command = some cmd → ∃ rest, cmd = pr.path :: rest) ∧
    (hc.command = none → pr.path = "/health") ∧
    (∀ pms, c.portMappings = some pms →
      ∃ pm rest, pms = pm :: rest ∧ pm.containerPort = some pr.port) ∧
    (c.portMappings = none → pr.port = 80) := by
  unfold buildProbe at h
  split at h
  · exact absurd h (by simp)
  next path tail hcmdeq =>
  split at h
  · exact absurd h (by simp)
  next pm rest hpmeq =>
  split at h
  · exact absurd h (by simp)
  next port hcpeq =>
  simp only [Except.ok.injEq] at h
  subst h
  refine ⟨?_, ?_, ?_, ?_⟩
  · intro cmd hcmd2
    rw [hcmd2, Option.getD_some] at hcmdeq
    exact ⟨tail, hcmdeq⟩
  · intro hcmd2
    rw [hcmd2, Option.getD_none] at hcmdeq
    injection hcmdeq with h1 h2
    exact h1.symm
  · intro pms hpms2
    rw [hpms2, Option.getD_some] at hpmeq
    exact ⟨pm, rest, hpmeq, hcpeq⟩
  · intro hpms2
    rw [hpms2, Option.getD_none] at hpmeq
    unfold defaultProbePortMappings at hpmeq
    injection hpmeq with h1 h2
    subst h1
    have h80 : some (80 : Nat) = some port := hcpeq
    injection h80 with h80
    exact h80.symm

def c5BadContainer : ContainerDef :=
  { name := some "api", image := some "img",
    healthCheck := some { command := some ([] : List String) } }

/-- C5 counterexample: a container whose health check carries a present but
empty command list does not get a probe with the default path; the
conversion of the container fails with an index error instead. -/
theorem probe_empty_command_counterexample :
    buildContainer "cygni-app" c5BadContainer
      = Except.error "IndexError: list index out of range" ∧
    (buildContainer "cygni-app" c5BadContainer).toOption = none := ⟨rfl, rfl⟩

/-- C5 amended: when conversion of a container with a health check
succeeds, the probe path is the first element of the command field,
defaulting to the health path only when the command field is absent, and
the probe port is the containerPort of the first port mapping, defaulting
to 80 only when the portMappings field is absent; a present but empty
command or portMappings list makes the conversion fail instead. -/
theorem probe_path_port_amended (app_name : String) (c : ContainerDef)
    (hc : HealthCheck) (k : K8sContainer) (hhc : c.healthCheck = some hc)
    (hok : buildContainer app_name c = Except.ok k) :
    ∃ pr, k.livenessProbe = some pr ∧
      (∀ cmd, hc.command = some cmd → ∃ rest, cmd = pr.path :: rest) ∧
      (hc.command = none → pr.path = "/health") ∧
      (∀ pms, c.portMappings = some pms →
        ∃ pm rest, pms = pm :: rest ∧ pm.containerPort = some pr.port) ∧
      (c.portMappings = none → pr.port = 80) := by
  obtain ⟨cname, img, ports, probe, _, _, _, hl, hk⟩ :=
    buildContainer_ok_fields app_name c k hok
  unfold buildLiveness at hl
  split at hl
  next heq =>
    rw [hhc] at heq
    cases heq
  next hc2 heq =>
    rw [hhc] at heq
    injection heq with heq2
    subst heq2
    split at hl
    · exact absurd hl (by simp)
    next pr hpreq =>
      simp only [Except.ok.injEq] at hl
      refine ⟨pr, ?_, buildProbe_ok c hc pr hpreq⟩
      rw [hk, ← hl]

def c5GoodContainer : ContainerDef :=
  { name := some "api", image := some "img",
    portMappings := some [{ containerPort := some 9090 }],
    healthCheck := some { command := some ["/ping", "extra"] } }

def c5GoodResult : K8sContainer :=
  match buildContainer "app" c5GoodContainer with
  | Except.ok k => k
  | Except.error _ => dummyContainer

theorem probe_path_port_amended_witness :
    c5GoodContainer.healthCheck = some { command := some ["/ping", "extra"] } ∧
    buildContainer "app" c5GoodContainer = Except.ok c5GoodResult ∧
    c5GoodResult.livenessProbe.map Probe.path = some "/ping" ∧
    c5GoodResult.livenessProbe.map Probe.port = some 9090 := by
  refine ⟨rfl, rfl, ?_, ?_⟩ <;>
    obtain ⟨pr, hpr, hcmd, _, hport, _⟩ :=
      probe_path_port_amended "app" c5GoodContainer
        { command := some ["/ping", "extra"] } c5GoodResult rfl rfl
  · obtain ⟨rest, hrest⟩ := hcmd ["/ping", "extra"] rfl
    injection hrest with h1 h2
    rw [hpr, Option.map_some', ← h1]
  · obtain ⟨pm, rest, hcons, hcp⟩ := hport [{ containerPort := some 9090 }] rfl
    injection hcons with h1 h2
    subst h1
    have h9 : some (9090 : Nat) = some pr.port := hcp
    injection h9 with h9
    rw [hpr, Option.map_some', ← h9]

/-- A fallible map succeeds only when it succeeds on every element. -/
theorem mapME_ok_of_mem {α β : Type} (f : α → Except String β) (l : List α)
    (x : α) (hx : x ∈ l) (bs : List β) (h : mapME f l = Except.ok bs) :
    ∃ b, f x = Except.ok b := by
  induction l generalizing bs with
  | nil => cases hx
  | cons y ys ih =>
    unfold mapME at h
    rcases hy : f y with e | b <;> rw [hy] at h
    · exact absurd h (by simp)
    rcases hys : mapME f ys with e | bs2 <;> rw [hys] at h
    · exact absurd h (by simp)
    rcases List.mem_cons.mp hx with rfl | hx2
    · exact ⟨b, hy⟩
    · exact ih hx2 bs2 hys

/-- A container with no image field never converts successfully. -/
theorem buildContainer_image_none (app_name : String) (c : ContainerDef)
    (hi : c.image = none) (k : K8sContainer) :
    buildContainer app_name c ≠ Except.ok k := by
  intro h
  unfold buildContainer at h
  rcases hn : c.name with _ | cname <;> rw [hn] at h
  · exact absurd h (by simp)
  rw [hi] at h
  exact absurd h (by simp)

/-- A container with a port mapping that lacks the numeric port never
converts successfully. -/
theorem buildContainer_port_none (app_name : String) (c : ContainerDef)
    (pms : List PortMapping) (hpms : c.portMappings = some pms)
    (pm : PortMapping) (hpm : pm ∈ pms) (hcp : pm.containerPort = none)
    (k : K8sContainer) : buildContainer app_name c ≠ Except.ok k := by
  intro h
  unfold buildContainer at h
  rcases hn : c.name with _ | cname <;> rw [hn] at h
  · exact absurd h (by simp)
  rcases hi : c.image with _ | img <;> rw [hi] at h
  · exact absurd h (by simp)
  rcases hp : buildPorts c with e | ports <;> rw [hp] at h
  · exact absurd h (by simp)
  unfold buildPorts at hp
  simp only [hpms] at hp
  rcases hm : mapME buildPort pms with e | ks
  · rw [hm] at hp
    exact absurd hp (by simp)
  · obtain ⟨b, hb⟩ := mapME_ok_of_mem buildPort pms pm hpm ks hm
    unfold buildPort at hb
    rw [hcp] at hb
    exact absurd hb (by simp)

/-- C6: an input with a container missing its image, or with a port mapping
missing its numeric port, makes the whole conversion abort with an error;
no manifest list is produced at all. -/
theorem missing_required_field_aborts (td : TaskDef) (sd : ServiceDef)
    (h : ∃ c ∈ td.containerDefinitions,
      c.image = none ∨
      ∃ pms, c.portMappings = some pms ∧ ∃ pm ∈ pms, pm.containerPort = none) :
    (∃ e, generateManifests td sd = Except.error e) ∧
    ∀ ms, generateManifests td sd ≠ Except.ok ms := by
  obtain ⟨c, hcmem, hbad⟩ := h
  have hnc : ∀ k, buildContainer (appName td) c ≠ Except.ok k := by
    rcases hbad with hino | ⟨pms, hpms, pm, hpm, hcp⟩
    · exact fun k => buildContainer_image_none (appName td) c hino k
    · exact fun k => buildContainer_port_none (appName td) c pms hpms pm hpm hcp k
  have hdep : ∀ d, create_deployment td sd (appName td) ≠ Except.ok d := by
    intro d hd
    unfold create_deployment at hd
    rcases hm : mapME (buildContainer (appName td)) td.containerDefinitions
        with e | cs <;> rw [hm] at hd
    · exact absurd hd (by simp)
    obtain ⟨b, hb⟩ := mapME_ok_of_mem (buildContainer (appName td))
      td.containerDefinitions c hcmem cs hm
    exact hnc b hb
  have hgen : ∀ ms, generateManifests td sd ≠ Except.ok ms := by
    intro ms hms
    unfold generateManifests at hms
    rcases hd : create_deployment td sd (appName td) with e | d <;> rw [hd] at hms
    · exact absurd hms (by simp)
    exact hdep d hd
  refine ⟨?_, hgen⟩
  rcases hg : generateManifests td sd with e | ms
  · exact ⟨e, rfl⟩
  · exact absurd hg (hgen ms)

def c6Td : TaskDef := { containerDefinitions := [{ name := some "api" }] }

theorem missing_required_field_aborts_witness :
    generateManifests c6Td {} = Except.error "KeyError: image" ∧
    generateManifests c6Td {} ≠ Except.ok [] := by
  refine ⟨rfl, ?_⟩
  exact (missing_required_field_aborts c6Td {}
    ⟨{ name := some "api" }, by simp [c6Td], Or.inl rfl⟩).2 []

/-- A successful run decomposes into the five assembler results collected
in the fixed order deployment, service, ingress, serviceaccount, hpa. -/
theorem generateManifests_decomp (td : TaskDef) (sd : ServiceDef)
    (ms : List (String × Manifest)) (h : generateManifests td sd = Except.ok ms) :
    ∃ d sv ing,
      create_deployment td sd (appName td) = Except.ok d ∧
      create_service td (appName td) = Except.ok sv ∧
      create_ingress sd (appName td) sv.ports = Except.ok ing ∧
      ms = [("deployment", Manifest.deployment d),
            ("service", Manifest.service sv)] ++
        (match ing with
         | some i => [("ingress", Manifest.ingress i)]
         | none => ([] : List (String × Manifest))) ++
        (match create_service_account td (appName td) with
         | some sa => [("serviceaccount", Manifest.serviceAccount sa)]
         | none => ([] : List (String × Manifest))) ++
        [("hpa", Manifest.hpa (create_hpa (appName td) (sd.desiredCount.getD 2)
            (min (sd.desiredCount.getD 2 * 5) 50)))] := by
  unfold generateManifests at h
  rcases hd : create_deployment td sd (appName td) with e | d
  · rw [hd] at h
    exact absurd h (by simp)
  simp only [hd] at h
  rcases hs : create_service td (appName td) with e | sv
  · rw [hs] at h
    exact absurd h (by simp)
  simp only [hs] at h
  rcases hi : create_ingress sd (appName td) sv.ports with e | ing
  · rw [hi] at h
    exact absurd h (by simp)
  simp only [hi] at h
  simp only [Except.ok.injEq] at h
  exact ⟨d, sv, ing, rfl, rfl, hi, h.symm⟩

/-- Field values of a successfully assembled Deployment manifest. -/
theorem create_deployment_fields (td : TaskDef) (sd : ServiceDef) (app : String)
    (d : Deployment) (h : create_deployment td sd app = Except.ok d) :
    d.name = app ∧ d.labelApp = app ∧ d.selectorApp = app ∧
    d.templateLabelApp = app ∧ d.replicas = sd.desiredCount.getD 2 ∧
    (d.serviceAccountName = none ∨ d.serviceAccountName = some app) := by
  unfold create_deployment at h
  rcases hm : mapME (buildContainer app) td.containerDefinitions with e | cs <;>
    rw [hm] at h
  · exact absurd h (by simp)
  simp only [Except.ok.injEq] at h
  subst h
  refine ⟨rfl, rfl, rfl, rfl, rfl, ?_⟩
  rcases hta : td.taskRoleArn with _ | arn
  · exact Or.inl (by simp [hta])
  · exact Or.inr (by simp [hta])

/-- Field values of a successfully assembled Service manifest; its port
list is never empty because of the synthesized default entry. -/
theorem create_service_fields (td : TaskDef) (app : String) (sv : ServiceManifest)
    (h : create_service td app = Except.ok sv) :
    sv.name = app ∧ sv.labelApp = app ∧ sv.selectorApp = app ∧ sv.ports ≠ [] := by
  unfold create_service at h
  rcases hm : mapME (fun c => mapME svcPortOf (c.portMappings.getD []))
      td.containerDefinitions with e | pls <;> rw [hm] at h
  · exact absurd h (by simp)
  simp only [Except.ok.injEq] at h
  subst h
  refine ⟨rfl, rfl, rfl, ?_⟩
  rcases hflat : pls.flatten with _ | ⟨p, ps⟩ <;> simp [hflat, defaultHttpPort]

/-- The Ingress option of a successful run is empty exactly when the load
balancer list of the service definition is empty. -/
theorem create_ingress_none_iff (sd : ServiceDef) (app : String)
    (ports : List SvcPort) (ing : Option Ingress)
    (h : create_ingress sd app ports = Except.ok ing) :
    ing = none ↔ sd.loadBalancers = [] := by
  unfold create_ingress at h
  rcases hlb : sd.loadBalancers with _ | ⟨lb, rest⟩ <;> simp only [hlb] at h
  · simp only [Except.ok.injEq] at h
    subst h
    simp [hlb]
  · rcases hps : ports with _ | ⟨p0, ps⟩ <;> simp only [hps] at h
    · exact absurd h (by simp)
    rcases hca : lb.certificateArn with _ | arn <;> simp only [hca] at h <;>
      simp only [Except.ok.injEq] at h <;> subst h <;> simp [hlb]

/-- Field values of a successfully assembled Ingress manifest. -/
theorem create_ingress_fields (sd : ServiceDef) (app : String)
    (ports : List SvcPort) (i : Ingress)
    (h : create_ingress sd app ports = Except.ok (some i)) :
    i.name = app ∧ i.labelApp = app ∧ i.backendServiceName = app := by
  unfold create_ingress at h
  rcases hlb : sd.loadBalancers with _ | ⟨lb, rest⟩ <;> simp only [hlb] at h
  · exact absurd h (by simp)
  rcases hps : ports with _ | ⟨p0, ps⟩ <;> simp only [hps] at h
  · exact absurd h (by simp)
  rcases hca : lb.certificateArn with _ | arn <;> simp only [hca] at h <;>
    simp only [Except.ok.injEq, Option.some.injEq] at h <;> subst h <;>
    exact ⟨rfl, rfl, rfl⟩

/-- Field values of a present ServiceAccount manifest. -/
theorem create_service_account_some (td : TaskDef) (app : String)
    (sa : ServiceAccount) (h : create_service_account td app = some sa) :
    sa.name = app ∧ sa.labelApp = app := by
  unfold create_service_account at h
  rcases hta : td.taskRoleArn with _ | arn <;> simp only [hta] at h
  · exact absurd h (by simp)
  · simp only [Option.some.injEq] at h
    subst h
    exact ⟨rfl, rfl⟩

/-- C1: the Ingress manifest is in the output set iff the load balancer
list of the service definition is non-empty, and the ServiceAccount
manifest is in the output set iff the task definition carries a role
reference; the two conditions act independently of each other. -/
theorem conditional_manifest_presence (td : TaskDef) (sd : ServiceDef)
    (ms : List (String × Manifest)) (h : generateManifests td sd = Except.ok ms) :
    ("ingress" ∈ ms.map Prod.fst ↔ sd.loadBalancers ≠ []) ∧
    ("serviceaccount" ∈ ms.map Prod.fst ↔ td.taskRoleArn ≠ none) := by
  obtain ⟨d, sv, ing, hd, hs, hi, hms⟩ := generateManifests_decomp td sd ms h
  subst hms
  have hiff := create_ingress_none_iff sd (appName td) sv.ports ing hi
  rcases hlb : sd.loadBalancers with _ | ⟨lb, rest⟩
  · have hnone : ing = none := hiff.mpr hlb
    subst hnone
    rcases hta : td.taskRoleArn with _ | arn <;>
      simp [create_service_account, hta, hlb]
  · rcases ing with _ | i
    · exact absurd (hiff.mp rfl) (by simp [hlb])
    · rcases hta : td.taskRoleArn with _ | arn <;>
        simp [create_service_account, hta, hlb]

def tdA : TaskDef :=
  { family := some "web", taskRoleArn := some "arn-role",
    containerDefinitions := [{ name := some "api", image := some "img" }] }

def sdA : ServiceDef :=
  { desiredCount := some 3, loadBalancers := [{}] }

def msA : List (String × Manifest) :=
  match generateManifests tdA sdA with
  | Except.ok ms => ms
  | Except.error _ => []

theorem conditional_manifest_presence_witness :
    generateManifests tdA sdA = Except.ok msA ∧
    ("ingress" ∈ msA.map Prod.fst ↔ sdA.loadBalancers ≠ []) ∧
    ("serviceaccount" ∈ msA.map Prod.fst ↔ tdA.taskRoleArn ≠ none) := by
  have h := conditional_manifest_presence tdA sdA msA rfl
  exact ⟨rfl, h.1, h.2⟩

/-- Names of a deployment manifest all equal the application name. -/
theorem manifestNames_deployment (d : Deployment) (app : String)
    (h1 : d.name = app) (h2 : d.labelApp = app) (h3 : d.selectorApp = app)
    (h4 : d.templateLabelApp = app)
    (h5 : d.serviceAccountName = none ∨ d.serviceAccountName = some app) :
    ∀ s ∈ manifestNames (Manifest.deployment d), s = app := by
  intro s hs
  rcases h5 with h5 | h5 <;>
    simp [manifestNames, h5, h1, h2, h3, h4] at hs <;> exact hs

/-- C2: the application name is derived once from the family field with the
fixed default, and every workload-naming string in every manifest of a
successful output set is that exact string. -/
theorem app_name_identical (td : TaskDef) (sd : ServiceDef)
    (ms : List (String × Manifest)) (h : generateManifests td sd = Except.ok ms) :
    appName td = td.family.getD "cygni-app" ∧
    (td.family = none → appName td = "cygni-app") ∧
    ∀ p ∈ ms, ∀ s ∈ manifestNames p.2, s = appName td := by
  refine ⟨rfl, fun hf => by simp [appName, hf], ?_⟩
  obtain ⟨d, sv, ing, hd, hs, hi, hms⟩ := generateManifests_decomp td sd ms h
  obtain ⟨hd1, hd2, hd3, hd4, _, hdsa⟩ :=
    create_deployment_fields td sd (appName td) d hd
  obtain ⟨hs1, hs2, hs3, _⟩ := create_service_fields td (appName td) sv hs
  have hdep := manifestNames_deployment d (appName td) hd1 hd2 hd3 hd4 hdsa
  subst hms
  intro p hp
  rcases ing with _ | i <;>
    rcases hsa : create_service_account td (appName td) with _ | sa <;>
      simp only [hsa, List.mem_append, List.mem_cons, List.not_mem_nil,
        or_false, false_or, List.mem_singleton] at hp
  · rcases hp with (hp | hp) | hp <;> subst hp
    · exact hdep
    · intro s hs0
      simp [manifestNames, hs1, hs2, hs3] at hs0
      exact hs0
    · intro s hs0
      simp [manifestNames, create_hpa] at hs0
      exact hs0
  · rcases hp with ((hp | hp) | hp) | hp <;> subst hp
    · exact hdep
    · intro s hs0
      simp [manifestNames, hs1, hs2, hs3] at hs0
      exact hs0
    · obtain ⟨ha1, ha2⟩ := create_service_account_some td (appName td) sa hsa
      intro s hs0
      simp [manifestNames, ha1, ha2] at hs0
      exact hs0
    · intro s hs0
      simp [manifestNames, create_hpa] at hs0
      exact hs0
  · obtain ⟨hi1, hi2, hi3⟩ := create_ingress_fields sd (appName td) sv.ports i hi
    rcases hp with ((hp | hp) | hp) | hp <;> subst hp
    · exact hdep
    · intro s hs0
      simp [manifestNames, hs1, hs2, hs3] at hs0
      exact hs0
    · intro s hs0
      simp [manifestNames, hi1, hi2, hi3] at hs0
      exact hs0
    · intro s hs0
      simp [manifestNames, create_hpa] at hs0
      exact hs0
  · obtain ⟨hi1, hi2, hi3⟩ := create_ingress_fields sd (appName td) sv.ports i hi
    obtain ⟨ha1, ha2⟩ := create_service_account_some td (appName td) sa hsa
    rcases hp with (((hp | hp) | hp) | hp) | hp <;> subst hp
    · exact hdep
    · intro s hs0
      simp [manifestNames, hs1, hs2, hs3] at hs0
      exact hs0
    · intro s hs0
      simp [manifestNames, hi1, hi2, hi3] at hs0
      exact hs0
    · intro s hs0
      simp [manifestNames, ha1, ha2] at hs0
      exact hs0
    · intro s hs0
      simp [manifestNames, create_hpa] at hs0
      exact hs0

theorem app_name_identical_witness :
    generateManifests tdA sdA = Except.ok msA ∧
    ("hpa", Manifest.hpa (create_hpa "web" 3 15)) ∈ msA ∧
    (create_hpa "web" 3 15).name = appName tdA := by
  have h := (app_name_identical tdA sdA msA rfl).2.2
    ("hpa", Manifest.hpa (create_hpa "web" 3 15)) (by decide)
  exact ⟨rfl, by decide, h (create_hpa "web" 3 15).name (by simp [manifestNames])⟩

/-- C8: every successful output set contains the autoscaler whose
minReplicas is the desired count with default 2 and whose maxReplicas is
the minimum of five times the desired count and 50. -/
theorem hpa_replica_bounds (td : TaskDef) (sd : ServiceDef)
    (ms : List (String × Manifest)) (h : generateManifests td sd = Except.ok ms) :
    ("hpa", Manifest.hpa (create_hpa (appName td) (sd.desiredCount.getD 2)
        (min (sd.desiredCount.getD 2 * 5) 50))) ∈ ms ∧
    ∀ hp, ("hpa", Manifest.hpa hp) ∈ ms →
      hp.minReplicas = sd.desiredCount.getD 2 ∧
      hp.maxReplicas = min (sd.desiredCount.getD 2 * 5) 50 := by
  obtain ⟨d, sv, ing, hd, hs, hi, hms⟩ := generateManifests_decomp td sd ms h
  subst hms
  constructor
  · exact List.mem_append_right _ (by simp)
  · intro hp hmem
    rcases ing with _ | i <;>
      rcases hsa : create_service_account td (appName td) with _ | sa <;>
        simp [hsa, Prod.mk.injEq] at hmem <;> subst hmem <;> exact ⟨rfl, rfl⟩

def tdB : TaskDef := {}

def sdB : ServiceDef := { desiredCount := some 3 }

def msB : List (String × Manifest) :=
  match generateManifests tdB sdB with
  | Except.ok ms => ms
  | Except.error _ => []

theorem hpa_replica_bounds_witness :
    generateManifests tdB sdB = Except.ok msB ∧
    ("hpa", Manifest.hpa (create_hpa (appName tdB) 3 15)) ∈ msB ∧
    (create_hpa (appName tdB) 3 15).minReplicas = 3 ∧
    (create_hpa (appName tdB) 3 15).maxReplicas = 15 := by
  have h := hpa_replica_bounds tdB sdB msB rfl
  exact ⟨rfl, h.1, (h.2 (create_hpa (appName tdB) 3 15) h.1).1,
    (h.2 (create_hpa (appName tdB) 3 15) h.1).2⟩

/-- C10: in every successful output set the Deployment replica count and
the autoscaler minReplicas agree, both being the desired count with the
same default of 2. -/
theorem replicas_eq_min_replicas (td : TaskDef) (sd : ServiceDef)
    (ms : List (String × Manifest)) (h : generateManifests td sd = Except.ok ms) :
    (∃ d, ("deployment", Manifest.deployment d) ∈ ms ∧
       d.replicas = sd.desiredCount.getD 2) ∧
    (∃ hp, ("hpa", Manifest.hpa hp) ∈ ms ∧
       hp.minReplicas = sd.desiredCount.getD 2) ∧
    ∀ d hp, ("deployment", Manifest.deployment d) ∈ ms →
      ("hpa", Manifest.hpa hp) ∈ ms → d.replicas = hp.minReplicas := by
  obtain ⟨d, sv, ing, hd, hs, hi, hms⟩ := generateManifests_decomp td sd ms h
  have hrep := (create_deployment_fields td sd (appName td) d hd).2.2.2.2.1
  subst hms
  refine ⟨⟨d, by simp, hrep⟩,
    ⟨create_hpa (appName td) (sd.desiredCount.getD 2)
        (min (sd.desiredCount.getD 2 * 5) 50),
      List.mem_append_right _ (by simp), rfl⟩, ?_⟩
  intro d2 hp2 hd2 hh2
  rcases ing with _ | i <;>
    rcases hsa : create_service_account td (appName td) with _ | sa <;>
      simp [hsa, Prod.mk.injEq] at hd2 hh2 <;> subst hd2 <;> subst hh2 <;>
      exact hrep

def dummyDeployment : Deployment :=
  { name := "", labelApp := "", labelManagedBy := "", labelMigratedFrom := "",
    replicas := 0, selectorApp := "", templateLabelApp := "", containers := [],
    restartPolicy := "", maxSurge := 0, maxUnavailable := 0 }

def depA : Deployment :=
  match create_deployment tdA sdA (appName tdA) with
  | Except.ok d => d
  | Except.error _ => dummyDeployment

theorem replicas_eq_min_replicas_witness :
    generateManifests tdA sdA = Except.ok msA ∧
    ("deployment", Manifest.deployment depA) ∈ msA ∧
    ("hpa", Manifest.hpa (create_hpa "web" 3 15)) ∈ msA ∧
    depA.replicas = (create_hpa "web" 3 15).minReplicas := by
  refine ⟨rfl, by decide, by decide, ?_⟩
  exact (replicas_eq_min_replicas tdA sdA msA rfl).2.2 depA
    (create_hpa "web" 3 15) (by decide) (by decide)

end FargateToK8s
